import Mathlib

/-!
Shallow embedding of the data-preparation pipeline of `src/data_processor.py`
(class `DataProcessor`), together with proofs settling the specification
claims about it.

Modelling conventions:
* A pandas `DataFrame` is a `Table`: a list of named columns, each carrying a
  pandas dtype tag and a list of tagged cell values.  The pandas row index is
  not modelled (no claim depends on index alignment).
* `NaN` / `NaT` / `None` are the single first-class value `Cell.missing`.
* Numbers are exact rationals.  Operations whose numeric content lives in
  external libraries (numpy square root inside `std` / `StandardScaler`,
  sklearn PCA, the pandas `to_datetime` / `to_numeric` parsers) are fields of
  a `PandasLib` parameter; theorems that need a fact about them state it as a
  hypothesis matching the documented library contract.
* Diagnostics are the `logger.log_info` / `log_warning` / `log_error` calls,
  collected in emission order.  Quote characters around interpolated column
  names in log messages are omitted; no claim depends on them.  Error
  messages keep only their fixed leading text.
* Each stage returns `Table × List Diag`: the Python methods mutate `df` and
  return it; the caught-exception paths return the object as mutated so far,
  which the embedding reproduces explicitly.
-/

/-- A single pandas cell value: number, text, datetime, boolean, or missing
(NaN/NaT/None). -/
inductive Cell where
  | num : ℚ → Cell
  | text : String → Cell
  | dt : Int → Cell
  | bool : Bool → Cell
  | missing : Cell
deriving DecidableEq, Repr

/-- The pandas dtype of a column, as used for `select_dtypes` dispatch. -/
inductive Dtype where
  | numeric
  | object
  | datetime
  | boolean
deriving DecidableEq, Repr

/-- One named column of a DataFrame. -/
structure Col where
  name : String
  dtype : Dtype
  cells : List Cell
deriving DecidableEq, Repr

/-- A DataFrame: an ordered list of named columns. -/
structure Table where
  cols : List Col
deriving DecidableEq, Repr

/-- Severity of a logger call (`log_info` / `log_warning` / `log_error`). -/
inductive Severity where
  | info
  | warning
  | error
deriving DecidableEq, Repr

/-- One diagnostic event emitted through the logger. -/
structure Diag where
  sev : Severity
  msg : String
deriving DecidableEq, Repr

/-- External library functions the pipeline calls into (pandas parsers,
numpy square root, sklearn PCA).  The pipeline is parametric in them; where
a theorem needs a fact about one, it assumes the documented contract. -/
structure PandasLib where
  /-- `pd.to_datetime` applied to one text cell: `some` epoch value on
  success, `none` when parsing raises `ValueError`. -/
  dateParse : String → Option Int
  /-- `pd.to_numeric` applied to one text cell. -/
  numParse : String → Option ℚ
  /-- numpy square root, used inside `std` and `StandardScaler`. -/
  sqrtQ : ℚ → ℚ
  /-- `sklearn.decomposition.PCA(n_components).fit_transform`, taking the
  variance-fraction parameter and the list of numeric columns and returning
  the list of principal-component columns. -/
  pca : ℚ → List (List ℚ) → List (List ℚ)

/-- Row count of a table: pandas `len(df)`, the shared column length
(read off the first column; 0 for a table with no columns). -/
def Table.nRows (t : Table) : Nat :=
  ((t.cols.head?).map (fun c => c.cells.length)).getD 0

/-- The table is rectangular with row count `n`. -/
def RectN (t : Table) (n : Nat) : Prop :=
  ∀ c ∈ t.cols, c.cells.length = n

/-- The table is rectangular: all columns share one length.  Every real
pandas `DataFrame` satisfies this. -/
def Rect (t : Table) : Prop := ∃ n, RectN t n

/-- Python `re.sub` class `\w` (word character) restricted to ASCII, as it
applies to the lowered column names. -/
def isWordChar (c : Char) : Bool := c.isAlphanum || c = '_'

/-- Column-name normalization of `basic_cleaning`:
`.str.strip().str.lower()`, then `re.sub(r'[^\w\s]', '', col)` and
`.replace(' ', '_')`. -/
def cleanName (s : String) : String :=
  let lowered := s.trim.toLower
  let kept := lowered.toList.filter (fun c => isWordChar c || c.isWhitespace)
  String.mk (kept.map (fun c => if c = ' ' then '_' else c))

/-- True when the cell is a text value. -/
def Cell.isText : Cell → Bool
  | .text _ => true
  | _ => false

/-- True when the cell is a non-missing value. -/
def Cell.isValue : Cell → Bool
  | .missing => false
  | _ => true

/-- Pandas `.str` accessor availability check on an object column: the
accessor raises `AttributeError` when the column holds non-missing values
but none of them is a string (inferred dtype `integer`, `floating`,
`boolean`, ...); with at least one string present the inferred dtype is
string-like or mixed and the accessor is available. -/
def strAccessorRaises (cs : List Cell) : Bool :=
  (cs.any fun c => c.isValue && !c.isText) && !(cs.any Cell.isText)

/-- `.str.strip()` on one cell of an object column whose accessor is
available: strings are trimmed, missing stays missing, and non-string
values in a mixed column become missing (pandas yields NaN for them). -/
def stripCell : Cell → Cell
  | .text s => .text s.trim
  | .missing => .missing
  | _ => .missing

/-- Step (a) of `basic_cleaning`: normalize the column names in place. -/
def renameCols (t : Table) : Table :=
  ⟨t.cols.map (fun c => { c with name := cleanName c.name })⟩

/-- `DataProcessor.basic_cleaning` (src/data_processor.py lines 60-77).
Normalizes column names, trims whitespace in object columns, drops columns
with no non-missing value (`dropna(axis=1, how='all')`).  The name
normalization mutates the frame in place; if the whitespace-trim step
raises (see `strAccessorRaises`), the `except` branch returns the frame as
already renamed, plus an error diagnostic. -/
def basic_cleaning (t : Table) : Table × List Diag :=
  let renamed := renameCols t
  if renamed.cols.any (fun c => c.dtype == Dtype.object && strAccessorRaises c.cells) then
    (renamed, [⟨Severity.error, "Error in basic_cleaning"⟩])
  else
    let stripped : Table :=
      ⟨renamed.cols.map (fun c =>
        if c.dtype == Dtype.object then { c with cells := c.cells.map stripCell } else c)⟩
    let dropped : Table := ⟨stripped.cols.filter (fun c => c.cells.any Cell.isValue)⟩
    (dropped, [⟨Severity.info, "Basic cleaning completed."⟩])

/-- Row `i` of the table (cells of each column at index `i`). -/
def rowAt (t : Table) (i : Nat) : List Cell :=
  t.cols.map (fun c => c.cells.getD i Cell.missing)

/-- The keep-mask of `df.drop_duplicates` for the given `keep` method:
row `i` is kept iff no earlier (`first`) / later (`last`) / other (`all`)
row is equal to it.  Pandas row equality treats NaN as equal to NaN, which
matches equality of `Cell.missing`. -/
def dupKeep (t : Table) (method : String) : List Bool :=
  let n := t.nRows
  if method == "first" then
    (List.range n).map (fun i =>
      (List.range n).all (fun j => decide (i ≤ j) || !(rowAt t j == rowAt t i)))
  else if method == "last" then
    (List.range n).map (fun i =>
      (List.range n).all (fun j => decide (j ≤ i) || !(rowAt t j == rowAt t i)))
  else
    (List.range n).map (fun i =>
      (List.range n).all (fun j => decide (j = i) || !(rowAt t j == rowAt t i)))

/-- Filter a list of cells by a boolean row mask. -/
def maskFilter (mask : List Bool) (cs : List Cell) : List Cell :=
  (mask.zip cs).filterMap (fun p => if p.1 then some p.2 else none)

/-- Apply a row keep-mask to every column of the table. -/
def applyMask (mask : List Bool) (t : Table) : Table :=
  ⟨t.cols.map (fun c => { c with cells := maskFilter mask c.cells })⟩

/-- `DataProcessor.handle_duplicates` (lines 79-94).  For a method outside
`first` / `last` / `all` no branch runs: the frame is untouched and the
info diagnostic reports 0 removed rows. -/
def handle_duplicates (method : String) (t : Table) : Table × List Diag :=
  if method == "first" || method == "last" || method == "all" then
    let t2 := applyMask (dupKeep t method) t
    (t2, [⟨Severity.info, "Removed " ++ toString (t.nRows - t2.nRows) ++ " duplicate rows."⟩])
  else
    (t, [⟨Severity.info, "Removed 0 duplicate rows."⟩])

/-- Number of missing values in a column (`isnull().sum()`). -/
def missingCount (cs : List Cell) : Nat := cs.countP (fun c => !c.isValue)

/-- The numeric values of a column, missing and non-numeric cells skipped. -/
def nums (cs : List Cell) : List ℚ :=
  cs.filterMap (fun c => match c with | Cell.num q => some q | _ => none)

/-- The text values of a column, missing and non-text cells skipped. -/
def texts (cs : List Cell) : List String :=
  cs.filterMap (fun c => match c with | Cell.text s => some s | _ => none)

/-- Ascending sort of rational values. -/
def sortedQ (l : List ℚ) : List ℚ := List.insertionSort (· ≤ ·) l

/-- Arithmetic mean. -/
def meanQ (l : List ℚ) : ℚ := l.sum / (l.length : ℚ)

/-- numpy-style median: average of the two middle elements of the sorted
list for even length, the middle element for odd length. -/
def medianQ (l : List ℚ) : ℚ :=
  let s := sortedQ l
  let n := s.length
  if n % 2 = 1 then s.getD (n / 2) 0
  else (s.getD (n / 2 - 1) 0 + s.getD (n / 2) 0) / 2

/-- First element of `cands` whose `cnt` is maximal among `cands` (sklearn
mode tie-break: candidates are supplied in ascending order, so this picks
the smallest most-frequent value). -/
def firstMax (cands : List α) (cnt : α → Nat) : Option α :=
  cands.find? (fun v => cands.all (fun w => cnt w ≤ cnt v))

/-- sklearn `SimpleImputer(strategy='most_frequent')` statistic: the
smallest value attaining the maximum frequency.  Defined for columns whose
non-missing values are all numeric or all text; on other columns (mixed
types, unorderable) the imputer raises, modelled as `none` — as it is for
a column with no non-missing value. -/
def mostFrequent (cs : List Cell) : Option Cell :=
  let vals := cs.filter Cell.isValue
  if vals.isEmpty then none
  else if vals.all (fun c => match c with | Cell.num _ => true | _ => false) then
    (firstMax (sortedQ (nums cs)).dedup (fun v => (nums cs).count v)).map Cell.num
  else if vals.all Cell.isText then
    (firstMax (List.insertionSort (· ≤ ·) (texts cs)).dedup
      (fun v => (texts cs).count v)).map Cell.text
  else none

/-- Replace every missing cell by `v`. -/
def fillMissing (v : Cell) (cs : List Cell) : List Cell :=
  cs.map (fun c => if c == Cell.missing then v else c)

/-- `SimpleImputer(strategy=method).fit_transform` on a single column:
`some` replacement cells, or `none` when the imputer raises (non-numeric
data under `mean`/`median`, or a column with no non-missing value). -/
def imputeCol (method : String) (cs : List Cell) : Option (List Cell) :=
  if method == "mean" || method == "median" then
    if (cs.filter Cell.isValue).all (fun c => match c with | Cell.num _ => true | _ => false)
        && !(nums cs).isEmpty then
      some (fillMissing (Cell.num (if method == "mean" then meanQ (nums cs)
        else medianQ (nums cs))) cs)
    else none
  else
    (mostFrequent cs).map (fun v => fillMissing v cs)

/-- Replace the cells of column `i`. -/
def setCol (t : Table) (i : Nat) (cs : List Cell) : Table :=
  ⟨((List.range t.cols.length).zip t.cols).map
    (fun p => if p.1 = i then { p.2 with cells := cs } else p.2)⟩

/-- One iteration of the `handle_missing_values` column loop on column `i`
of the current frame: the diagnostics it emits, and `some` updated frame or
`none` when the imputer raises (diagnostics emitted before the raise, such
as the over-50% warning, are kept). -/
def missingStep (method : String) (t : Table) (i : Nat) : List Diag × Option Table :=
  match t.cols.get? i with
  | none => ([], some t)
  | some c =>
    let mc := missingCount c.cells
    if mc = 0 then ([], some t)
    else
      let pct : ℚ := ((mc : ℚ) / (t.nRows : ℚ)) * 100
      let warn : List Diag :=
        if 50 < pct then
          [⟨Severity.warning, "Column " ++ c.name ++ " has " ++ toString pct
            ++ "% missing values. Consider dropping this column."⟩]
        else []
      let handled : Diag :=
        ⟨Severity.info, "Handled missing values in column " ++ c.name
          ++ " using " ++ method ++ " method."⟩
      if method == "drop" then
        (warn ++ [handled], some (applyMask (c.cells.map Cell.isValue) t))
      else if method == "mean" || method == "median" || method == "most_frequent" then
        match imputeCol method c.cells with
        | some cs => (warn ++ [handled], some (setCol t i cs))
        | none => (warn, none)
      else if method == "constant" then
        (warn ++ [handled], some (setCol t i (fillMissing (Cell.num 0) c.cells)))
      else
        (warn ++ [handled], some t)

/-- The `for column in df.columns` loop of `handle_missing_values`,
processing the listed column positions left to right.  A raise inside the
loop is caught by the stage-level handler: the frame as mutated so far is
returned with an error diagnostic and the remaining columns are not
processed. -/
def missingLoop (method : String) : Table → List Nat → Table × List Diag
  | t, [] => (t, [])
  | t, i :: rest =>
    match missingStep method t i with
    | (ds, some t2) =>
      let r := missingLoop method t2 rest
      (r.1, ds ++ r.2)
    | (ds, none) => (t, ds ++ [⟨Severity.error, "Error in handle_missing_values"⟩])

/-- `DataProcessor.handle_missing_values` (lines 96-117). -/
def handle_missing_values (method : String) (t : Table) : Table × List Diag :=
  missingLoop method t (List.range t.cols.length)

/-- `pd.to_datetime` on one cell of an object column: missing becomes NaT,
text parses through the library parser.  Object columns holding non-text
values are modelled as unparseable. -/
def parseDateCell (lib : PandasLib) : Cell → Option Cell
  | Cell.missing => some Cell.missing
  | Cell.text s => (lib.dateParse s).map Cell.dt
  | _ => none

/-- `pd.to_numeric` on one cell of an object column. -/
def parseNumCell (lib : PandasLib) : Cell → Option Cell
  | Cell.missing => some Cell.missing
  | Cell.text s => (lib.numParse s).map Cell.num
  | _ => none

/-- Per-column body of `convert_data_types`: object columns are parsed as
datetime, then as numeric, else kept; a whole-column parse succeeds only if
every cell parses (`pd.to_datetime` / `pd.to_numeric` raise `ValueError`
on the first unparseable cell).  Non-object columns are untouched. -/
def convertCol (lib : PandasLib) (c : Col) : Col × List Diag :=
  if c.dtype == Dtype.object then
    match c.cells.mapM (parseDateCell lib) with
    | some cs =>
      ({ c with dtype := Dtype.datetime, cells := cs },
       [⟨Severity.info, "Converted column " ++ c.name ++ " to datetime."⟩])
    | none =>
      match c.cells.mapM (parseNumCell lib) with
      | some cs =>
        ({ c with dtype := Dtype.numeric, cells := cs },
         [⟨Severity.info, "Converted column " ++ c.name ++ " to numeric."⟩])
      | none => (c, [])
  else (c, [])

/-- `DataProcessor.convert_data_types` (lines 119-135). -/
def convert_data_types (lib : PandasLib) (t : Table) : Table × List Diag :=
  (⟨t.cols.map (fun c => (convertCol lib c).1)⟩,
   (t.cols.map (fun c => (convertCol lib c).2)).flatten)

/-- Pandas `Series.quantile(q)` with the default linear interpolation, over
the sorted non-missing values: position `q·(n−1)` between the order
statistics.  The empty case is guarded by callers (pandas yields NaN). -/
def quantileQ (l : List ℚ) (q : ℚ) : ℚ :=
  let s := sortedQ l
  let n := s.length
  if n = 0 then 0
  else
    let h : ℚ := q * ((n : ℚ) - 1)
    let i : Nat := h.floor.toNat
    let lo := s.getD i 0
    let hi := s.getD (i + 1) lo
    lo + (h - (i : ℚ)) * (hi - lo)

/-- Population variance over the listed values (numpy `var`, ddof 0). -/
def varQ (l : List ℚ) : ℚ :=
  (l.map (fun x => (x - meanQ l) ^ 2)).sum / (l.length : ℚ)

/-- Pandas `Series.std()` (sample standard deviation, ddof 1), the square
root taken by the numeric library. -/
def stdQ (lib : PandasLib) (l : List ℚ) : ℚ :=
  lib.sqrtQ ((l.map (fun x => (x - meanQ l) ^ 2)).sum / ((l.length : ℚ) - 1))

/-- Number of cells strictly outside the given bounds (NaN compares false
in pandas, so missing cells are never outliers). -/
def outlierCount (lo hi : ℚ) (cs : List Cell) : Nat :=
  cs.countP (fun c => match c with
    | Cell.num v => decide (v < lo) || decide (hi < v)
    | _ => false)

/-- `Series.clip(lo, hi)` on one cell. -/
def clipCell (lo hi : ℚ) : Cell → Cell
  | Cell.num v => Cell.num (min (max v lo) hi)
  | c => c

/-- Bounds computed by one iteration of the `handle_outliers` loop:
`none` when the method is unrecognized (the later comparison line then
raises `NameError` on the unbound local); `some none` when the bounds are
NaN (empty column for `iqr`, fewer than two values for the ddof-1 `zscore`
std), in which case no cell tests as an outlier; else the bounds. -/
def outlierBounds (lib : PandasLib) (method : String) (l : List ℚ) :
    Option (Option (ℚ × ℚ)) :=
  if method == "iqr" then
    if l.isEmpty then some none
    else
      let q1 := quantileQ l (1/4)
      let q3 := quantileQ l (3/4)
      some (some (q1 - (3/2) * (q3 - q1), q3 + (3/2) * (q3 - q1)))
  else if method == "zscore" then
    if l.length < 2 then some none
    else some (some (meanQ l - 3 * stdQ lib l, meanQ l + 3 * stdQ lib l))
  else none

/-- The per-numeric-column loop of `handle_outliers`; a raise (unrecognized
method reaching the unbound-variable comparison) is caught at stage level,
returning the frame as mutated so far with an error diagnostic. -/
def outlierLoop (lib : PandasLib) (method : String) : Table → List Nat → Table × List Diag
  | t, [] => (t, [])
  | t, i :: rest =>
    match t.cols.get? i with
    | none =>
      let r := outlierLoop lib method t rest
      (r.1, r.2)
    | some c =>
      match outlierBounds lib method (nums c.cells) with
      | none => (t, [⟨Severity.error, "Error in handle_outliers"⟩])
      | some none =>
        let r := outlierLoop lib method t rest
        (r.1, r.2)
      | some (some (lo, hi)) =>
        let k := outlierCount lo hi c.cells
        if k = 0 then
          let r := outlierLoop lib method t rest
          (r.1, r.2)
        else
          let t2 := setCol t i (c.cells.map (clipCell lo hi))
          let ds := [⟨Severity.warning, "Found " ++ toString k ++ " outliers in column " ++ c.name ++ "."⟩,
                     ⟨Severity.info, "Clipped outliers in column " ++ c.name ++ "."⟩]
          let r := outlierLoop lib method t2 rest
          (r.1, ds ++ r.2)

/-- Positions of the columns selected by `select_dtypes(include=[np.number])`. -/
def numericIdx (t : Table) : List Nat :=
  (List.range t.cols.length).filter (fun i =>
    match t.cols.get? i with
    | some c => c.dtype == Dtype.numeric
    | none => false)

/-- `DataProcessor.handle_outliers` (lines 137-161). -/
def handle_outliers (lib : PandasLib) (method : String) (t : Table) : Table × List Diag :=
  outlierLoop lib method t (numericIdx t)

/-- All non-missing values of the column are text. -/
def allTextVals (cs : List Cell) : Bool := (cs.filter Cell.isValue).all Cell.isText

/-- Pandas `Series.nunique()`: number of distinct non-missing values. -/
def nunique (cs : List Cell) : Nat := (cs.filter Cell.isValue).dedup.length

/-- The distinct text values of the column in ascending (lexicographic)
order — the category order pandas uses for an object column. -/
def sortedCats (cs : List Cell) : List String :=
  (List.insertionSort (· ≤ ·) (texts cs)).dedup

/-- `pd.get_dummies(df, columns=[cn], prefix=cn, drop_first=True)` for the
object column `cn` with cells `cs`: the column is removed, and one 0/1
indicator column per distinct value except the first (ascending order) is
appended at the end, named `cn_value`; missing rows get all-zero
indicators (`dummy_na` defaults to off). -/
def getDummies (t : Table) (cn : String) (cs : List Cell) : Table :=
  ⟨t.cols.filter (fun d => !(d.name == cn)) ++
    ((sortedCats cs).drop 1).map (fun v =>
      ⟨cn ++ "_" ++ v, Dtype.boolean,
       cs.map (fun x => Cell.bool (x == Cell.text v))⟩)⟩

/-- `df[cn + "_encoded"] = df[cn].astype('category').cat.codes`: a new
integer column appended at the end, the code being the index of the value
in the ascending category order, `-1` for missing; the original column is
retained. -/
def labelEncode (t : Table) (cn : String) (cs : List Cell) : Table :=
  let vs := sortedCats cs
  ⟨t.cols ++ [⟨cn ++ "_encoded", Dtype.numeric,
    cs.map (fun x => match x with
      | Cell.text s => Cell.num ((vs.indexOf s : Nat) : ℚ)
      | _ => Cell.num (-1))⟩]⟩

/-- One iteration of the `encode_categorical_variables` loop for the column
name `cn` captured before the loop: `none` models a raise (column vanished,
or categories of mixed unorderable types, whose sort raises `TypeError`);
an unrecognized method matches no branch and leaves the frame untouched
with no diagnostic. -/
def encodeStep (method : String) (t : Table) (cn : String) :
    Option (Table × List Diag) :=
  match t.cols.find? (fun d => d.name == cn) with
  | none => none
  | some c =>
    let oneHot : Option (Table × List Diag) :=
      if allTextVals c.cells then
        some (getDummies t cn c.cells,
          [⟨Severity.info, "One-hot encoded column " ++ cn ++ "."⟩])
      else none
    let label : Option (Table × List Diag) :=
      if allTextVals c.cells then
        some (labelEncode t cn c.cells,
          [⟨Severity.info, "Label encoded column " ++ cn ++ "."⟩])
      else none
    if method == "auto" then
      if nunique c.cells < 10 then oneHot else label
    else if method == "onehot" then oneHot
    else if method == "label" then label
    else some (t, [])

/-- The column loop of `encode_categorical_variables`; a raise is caught at
stage level, returning the frame as mutated so far with an error
diagnostic. -/
def encodeLoop (method : String) : Table → List String → Table × List Diag
  | t, [] => (t, [])
  | t, cn :: rest =>
    match encodeStep method t cn with
    | some (t2, ds) =>
      let r := encodeLoop method t2 rest
      (r.1, ds ++ r.2)
    | none => (t, [⟨Severity.error, "Error in encode_categorical_variables"⟩])

/-- `DataProcessor.encode_categorical_variables` (lines 163-183); the list
of object columns is captured before the loop. -/
def encode_categorical_variables (method : String) (t : Table) : Table × List Diag :=
  encodeLoop method t ((t.cols.filter (fun c => c.dtype == Dtype.object)).map Col.name)

/-- Per-column transform of `scale_features`: sklearn scalers disregard
missing values when fitting and keep them in the output.  `standard`:
`(x − mean)/sqrt(population variance)`, a zero scale replaced by 1
(`_handle_zeros_in_scale`); `robust`: `(x − median)/(Q3 − Q1)` with the
same zero-scale guard. -/
def scaleCellsQ (lib : PandasLib) (method : String) (cs : List Cell) : List Cell :=
  let l := nums cs
  let center := if method == "standard" then meanQ l else medianQ l
  let rawScale := if method == "standard" then varQ l
    else quantileQ l (3/4) - quantileQ l (1/4)
  let scale := if method == "standard" then
      (if varQ l = 0 then 1 else lib.sqrtQ (varQ l))
    else (if rawScale = 0 then 1 else rawScale)
  cs.map (fun c => match c with
    | Cell.num x => Cell.num ((x - center) / scale)
    | c => c)

/-- `DataProcessor.scale_features` (lines 185-197).  An unrecognized method
leaves the local `scaler` unbound and raises `NameError` at the transform
line; sklearn also raises when there are no numeric columns (0 features)
or no rows (0 samples).  All raises are caught: error diagnostic, frame
unchanged. -/
def scale_features (lib : PandasLib) (method : String) (t : Table) : Table × List Diag :=
  if method == "standard" || method == "robust" then
    if (numericIdx t).isEmpty || t.nRows = 0 then
      (t, [⟨Severity.error, "Error in scale_features"⟩])
    else
      (⟨t.cols.map (fun c =>
          if c.dtype == Dtype.numeric then
            { c with cells := scaleCellsQ lib method c.cells }
          else c)⟩,
       [⟨Severity.info, "Scaled " ++ toString (numericIdx t).length
          ++ " numeric columns using " ++ method ++ " scaling."⟩])
  else
    (t, [⟨Severity.error, "Error in scale_features"⟩])

/-- A cell as sklearn/numpy coerce it to float: numbers and booleans
convert, everything else (text, datetime, missing) does not. -/
def cellF : Cell → Option ℚ
  | Cell.num q => some q
  | Cell.bool b => some (if b then 1 else 0)
  | _ => none

/-- `VarianceThreshold(0).fit(df)` raises (`could not convert` /
`Input contains NaN` / degenerate shape) unless every cell of every column
converts to a float and the frame has at least one column and one row. -/
def varThreshRaises (t : Table) : Bool :=
  t.cols.isEmpty || t.nRows == 0 ||
    t.cols.any (fun c => c.cells.any (fun x => (cellF x).isNone))

/-- The float values of a column (missing skipped), for variance and
correlation computations. -/
def colFloats (c : Col) : List ℚ := c.cells.filterMap cellF

/-- Absolute Pearson correlation of two columns as `df.corr().abs()`
computes it: over the rows where both are non-missing, with the square
roots in the denominator taken by the numeric library.  (A zero
denominator yields 0 here where pandas yields NaN; both compare false
against the 0.95 threshold.) -/
def corrAbs (lib : PandasLib) (a b : List Cell) : ℚ :=
  let pairs := (a.zip b).filterMap (fun p =>
    match cellF p.1, cellF p.2 with
    | some u, some v => some (u, v)
    | _, _ => none)
  let xs := pairs.map Prod.fst
  let ys := pairs.map Prod.snd
  let mx := meanQ xs
  let my := meanQ ys
  let cov := (pairs.map (fun p => (p.1 - mx) * (p.2 - my))).sum
  let den := lib.sqrtQ ((xs.map (fun x => (x - mx) ^ 2)).sum)
    * lib.sqrtQ ((ys.map (fun y => (y - my) ^ 2)).sum)
  |cov / den|

/-- Column positions dropped by the correlation pruning: position `j` is
dropped when some strictly earlier column correlates with it above 0.95
(the upper-triangle `any(upper[column] > 0.95)` test). -/
def corrDropIdx (lib : PandasLib) (cols : List Col) : List Nat :=
  (List.range cols.length).filter (fun j =>
    (List.range j).any (fun i =>
      decide ((19 : ℚ)/20 < corrAbs lib (cols.getD i ⟨"", Dtype.numeric, []⟩).cells
        (cols.getD j ⟨"", Dtype.numeric, []⟩).cells)))

/-- `df.corr()` raises (pandas 2 `numeric_only` default) when a column is
of text or datetime dtype; boolean and numeric columns participate. -/
def corrRaises (t : Table) : Bool :=
  t.cols.any (fun c => c.dtype == Dtype.object || c.dtype == Dtype.datetime)

/-- `DataProcessor.select_features` (lines 199-222).  The variance filter
runs only under the `variance` method; the correlation pruning runs
unconditionally after it.  A raise in either sklearn/pandas call is caught
at stage level and returns the frame as mutated so far. -/
def select_features (lib : PandasLib) (method : String) (t : Table) : Table × List Diag :=
  let step1 : Option (Table × List Diag) :=
    if method == "variance" then
      if varThreshRaises t then none
      else
        let kept := t.cols.filter (fun c => decide (0 < varQ (colFloats c)))
        let removed := t.cols.length - kept.length
        some (⟨kept⟩,
          if 0 < removed then
            [⟨Severity.info, "Removed " ++ toString removed ++ " constant columns."⟩]
          else [])
    else some (t, [])
  match step1 with
  | none => (t, [⟨Severity.error, "Error in select_features"⟩])
  | some (t1, ds1) =>
    if corrRaises t1 then
      (t1, ds1 ++ [⟨Severity.error, "Error in select_features"⟩])
    else
      let dropIdx := corrDropIdx lib t1.cols
      let t2 : Table := ⟨((List.range t1.cols.length).zip t1.cols).filterMap
        (fun p => if p.1 ∈ dropIdx then none else some p.2)⟩
      (t2, ds1 ++
        (if 0 < dropIdx.length then
          [⟨Severity.info, "Removed " ++ toString dropIdx.length
            ++ " highly correlated columns."⟩]
        else []))

/-- `DataProcessor.reduce_dimensions` (lines 224-236).  With at most one
numeric column the stage is a silent no-op.  Otherwise sklearn PCA raises
on missing or non-float data and on an empty frame (caught at stage
level); on success the numeric columns are replaced by the
principal-component columns `PC_1, PC_2, ...` appended after the
non-numeric columns.  The pandas row-index alignment of the final
`pd.concat` and the validation of the `n_components` parameter are not
modelled; no claim depends on them. -/
def reduce_dimensions (lib : PandasLib) (ncomp : ℚ) (t : Table) : Table × List Diag :=
  let numCols := t.cols.filter (fun c => c.dtype == Dtype.numeric)
  if 1 < numCols.length then
    if numCols.any (fun c => c.cells.any (fun x => (cellF x).isNone)) || t.nRows = 0 then
      (t, [⟨Severity.error, "Error in reduce_dimensions"⟩])
    else
      let pcs := lib.pca ncomp (numCols.map (fun c => c.cells.filterMap cellF))
      let pcaCols := ((List.range pcs.length).zip pcs).map (fun p =>
        (⟨"PC_" ++ toString (p.1 + 1), Dtype.numeric, p.2.map Cell.num⟩ : Col))
      (⟨t.cols.filter (fun c => !(c.dtype == Dtype.numeric)) ++ pcaCols⟩,
       [⟨Severity.info, "Reduced dimensions from " ++ toString numCols.length
          ++ " to " ++ toString pcs.length ++ " components."⟩])
  else (t, [])

/-- The `user_choices` mapping read by `prepare_data`, with the defaults of
the corresponding `.get` calls. -/
structure UserChoices where
  handle_duplicates : Bool := false
  duplicate_method : String := "first"
  handle_missing : Bool := false
  missing_method : String := "mean"
  handle_outliers : Bool := false
  outlier_method : String := "iqr"
  encode_categorical : Bool := false
  encoding_method : String := "auto"
  scale_features : Bool := false
  scaling_method : String := "standard"
  select_features : Bool := false
  feature_selection_method : String := "variance"
  reduce_dimensions : Bool := false
  n_components : ℚ := 95/100

/-- `DataProcessor.prepare_data` (lines 16-58): basic cleaning always,
then each optional stage guarded by its flag, type conversion always, in
the fixed source order; diagnostics are collected in emission order
between the start and completion log lines.  Every stage catches its own
exceptions, so the method-level `except` (the `Failed` path) is
unreachable. -/
def prepare_data (lib : PandasLib) (uc : UserChoices) (t : Table) : Table × List Diag :=
  let r1 := basic_cleaning t
  let r2 := if uc.handle_duplicates then handle_duplicates uc.duplicate_method r1.1
    else (r1.1, [])
  let r3 := if uc.handle_missing then handle_missing_values uc.missing_method r2.1
    else (r2.1, [])
  let r4 := convert_data_types lib r3.1
  let r5 := if uc.handle_outliers then handle_outliers lib uc.outlier_method r4.1
    else (r4.1, [])
  let r6 := if uc.encode_categorical then encode_categorical_variables uc.encoding_method r5.1
    else (r5.1, [])
  let r7 := if uc.scale_features then scale_features lib uc.scaling_method r6.1
    else (r6.1, [])
  let r8 := if uc.select_features then select_features lib uc.feature_selection_method r7.1
    else (r7.1, [])
  let r9 := if uc.reduce_dimensions then reduce_dimensions lib uc.n_components r8.1
    else (r8.1, [])
  (r9.1,
    ⟨Severity.info, "Starting data preparation..."⟩ ::
      (r1.2 ++ r2.2 ++ r3.2 ++ r4.2 ++ r5.2 ++ r6.2 ++ r7.2 ++ r8.2 ++ r9.2 ++
        [⟨Severity.info, "Data preparation completed successfully."⟩]))

/-- The nine pipeline stages. -/
inductive StageId where
  | cleaning
  | duplicates
  | missingVals
  | typeCoercion
  | outliers
  | encoding
  | scaling
  | selection
  | reduction
deriving DecidableEq, Repr

/-- The fixed stage order of `prepare_data`. -/
def stageOrder : List StageId :=
  [StageId.cleaning, StageId.duplicates, StageId.missingVals, StageId.typeCoercion,
   StageId.outliers, StageId.encoding, StageId.scaling, StageId.selection,
   StageId.reduction]

/-- Whether a stage runs under the given configuration: cleaning and type
coercion always do, each optional stage iff its flag is set. -/
def stageEnabled (uc : UserChoices) : StageId → Bool
  | StageId.cleaning => true
  | StageId.duplicates => uc.handle_duplicates
  | StageId.missingVals => uc.handle_missing
  | StageId.typeCoercion => true
  | StageId.outliers => uc.handle_outliers
  | StageId.encoding => uc.encode_categorical
  | StageId.scaling => uc.scale_features
  | StageId.selection => uc.select_features
  | StageId.reduction => uc.reduce_dimensions

/-- The stage implementation invoked for each stage id, with the strategy
the configuration resolves for it. -/
def runStage (lib : PandasLib) (uc : UserChoices) : StageId → Table → Table × List Diag
  | StageId.cleaning => basic_cleaning
  | StageId.duplicates => handle_duplicates uc.duplicate_method
  | StageId.missingVals => handle_missing_values uc.missing_method
  | StageId.typeCoercion => convert_data_types lib
  | StageId.outliers => handle_outliers lib uc.outlier_method
  | StageId.encoding => encode_categorical_variables uc.encoding_method
  | StageId.scaling => scale_features lib uc.scaling_method
  | StageId.selection => select_features lib uc.feature_selection_method
  | StageId.reduction => reduce_dimensions lib uc.n_components

/-- Run a list of stages in order, threading the table and concatenating
diagnostics. -/
def runStages (lib : PandasLib) (uc : UserChoices) : List StageId → Table → Table × List Diag
  | [], t => (t, [])
  | s :: rest, t =>
    let r := runStage lib uc s t
    let r2 := runStages lib uc rest r.1
    (r2.1, r.2 ++ r2.2)

/-- The stages that actually run under a configuration, in the fixed
order: a disabled stage is absent outright (so its table passes through
unchanged and it emits no diagnostic). -/
def enabledStages (uc : UserChoices) : List StageId :=
  stageOrder.filter (stageEnabled uc)

/-- The intermediate tables of a stage sequence: the input, then the table
after each stage. -/
def runTrace (lib : PandasLib) (uc : UserChoices) : List StageId → Table → List Table
  | [], t => [t]
  | s :: rest, t => t :: runTrace lib uc rest (runStage lib uc s t).1

/-- A trivial instantiation of the external library: both parsers always
fail, square root and PCA return nothing.  Used for concrete runs whose
claims do not depend on the library values. -/
def trivialLib : PandasLib :=
  ⟨fun _ => none, fun _ => none, fun _ => 0, fun _ _ => []⟩

/-- Documented shape contract of `PCA.fit_transform`: on a non-empty list
of equal-length columns it returns columns of that same length (one value
per input row). -/
def PcaRect (lib : PandasLib) : Prop :=
  ∀ (q : ℚ) (cols : List (List ℚ)) (n : Nat), cols ≠ [] →
    (∀ c ∈ cols, c.length = n) → ∀ c' ∈ lib.pca q cols, c'.length = n

/-- The outlier-scenario column of the specification: `[1,2,3,4,100]`. -/
def tOutlier : Table :=
  ⟨[⟨"x", Dtype.numeric,
     [Cell.num 1, Cell.num 2, Cell.num 3, Cell.num 4, Cell.num 100]⟩]⟩

/-- The round-trip-scenario table `[{a:1,b:"x"},{a:1,b:"x"},{a:2,b:"y"}]`. -/
def tRound : Table :=
  ⟨[⟨"a", Dtype.numeric, [Cell.num 1, Cell.num 1, Cell.num 2]⟩,
    ⟨"b", Dtype.object, [Cell.text "x", Cell.text "x", Cell.text "y"]⟩]⟩

/-- The round-trip-scenario configuration: Duplicate Resolver enabled with
strategy `first`, every other optional stage disabled. -/
def ucRound : UserChoices := { handle_duplicates := true, duplicate_method := "first" }

/-- Expected round-trip output `[{a:1,b:"x"},{a:2,b:"y"}]`. -/
def tRoundOut : Table :=
  ⟨[⟨"a", Dtype.numeric, [Cell.num 1, Cell.num 2]⟩,
    ⟨"b", Dtype.object, [Cell.text "x", Cell.text "y"]⟩]⟩

/-- A table on which the whitespace-trim step of `basic_cleaning` raises
after the column rename: one object column, named with surrounding noise,
holding a single number (no string), so the `.str` accessor is
unavailable. -/
def tClean : Table := ⟨[⟨" A!", Dtype.object, [Cell.num 1]⟩]⟩

/-- A table on which `handle_missing_values` with the `mean` strategy
fails on the first column (text data) while the second (numeric) column
also has a missing value that the strategy could impute. -/
def tMiss : Table :=
  ⟨[⟨"a", Dtype.object, [Cell.text "x", Cell.missing]⟩,
    ⟨"b", Dtype.numeric, [Cell.num 1, Cell.missing]⟩]⟩

/-- A table whose column name is changed by the Cleaner, witnessing that
stages do run (and modify the table) under an invalid strategy name. -/
def tConf : Table := ⟨[⟨"A ", Dtype.object, [Cell.text "x"]⟩]⟩

/-- A configuration whose duplicate method is not one of
`first`/`last`/`all`. -/
def ucBogusDup : UserChoices :=
  { handle_duplicates := true, duplicate_method := "bogus" }

/-- A categorical column with three distinct values (and a missing cell)
for the encoding scenario. -/
def csEnc : List Cell :=
  [Cell.text "b", Cell.text "a", Cell.text "c", Cell.text "a", Cell.missing]

/-- Single-column table holding `csEnc`. -/
def tEnc : Table := ⟨[⟨"c", Dtype.object, csEnc⟩]⟩

/-- A small typed table for the Type Coercer frame theorem: one numeric,
one object column. -/
def tTyped : Table :=
  ⟨[⟨"n", Dtype.numeric, [Cell.num 1]⟩, ⟨"o", Dtype.object, [Cell.text "x"]⟩]⟩

/-- Mean of a list of reals (`numpy.mean`). -/
noncomputable def meanR (l : List ℝ) : ℝ := l.sum / l.length

/-- Population variance of a list of reals (`numpy.var`, ddof 0), the
quantity sklearn `StandardScaler` fits. -/
noncomputable def varR (l : List ℝ) : ℝ :=
  (l.map (fun x => (x - meanR l) ^ 2)).sum / l.length

/-- Standard deviation, `sqrt` of the population variance. -/
noncomputable def stdR (l : List ℝ) : ℝ := Real.sqrt (varR l)

/-- Exact-real model of the `standard` branch of `scale_features` on one
numeric column, the formula sklearn `StandardScaler` computes:
`(x − mean)/sqrt(variance)`, with a zero scale replaced by 1
(`_handle_zeros_in_scale`), so a constant column maps to all zeros.  This
is the same formula as `scaleCellsQ`, with the library square root made
exact; floating-point rounding is modelled as exact real arithmetic. -/
noncomputable def standardScaleR (l : List ℝ) : List ℝ :=
  let m := meanR l
  let s := if varR l = 0 then 1 else Real.sqrt (varR l)
  l.map (fun x => (x - m) / s)

/-- C5 counterexample: on the column `[1,2,3,4,100]` with the `iqr`
strategy, the code clips `100` to `7` — the `Q3 + 1.5·IQR` bound computed
by pandas from the FULL column — whereas the closed-form bound computed
from the quartiles of `[1,2,3,4]` alone, as the claim states it, is
`11/2`.  The clipped cell is `7`, not `11/2`, refuting the claim at this
explicit input. -/
theorem c5_counterexample :
    ((handle_outliers trivialLib "iqr" tOutlier).1.cols.map Col.cells
      = [[Cell.num 1, Cell.num 2, Cell.num 3, Cell.num 4, Cell.num 7]]) ∧
    (quantileQ [1, 2, 3, 4] (3/4)
      + (3/2) * (quantileQ [1, 2, 3, 4] (3/4) - quantileQ [1, 2, 3, 4] (1/4)) = 11/2) ∧
    ¬ ((handle_outliers trivialLib "iqr" tOutlier).1.cols.map Col.cells
      = [[Cell.num 1, Cell.num 2, Cell.num 3, Cell.num 4, Cell.num (11/2)]]) := by
  with_unfolding_all decide

/-- C5 (amended): for the single numeric column `[1,2,3,4,100]` with the
`iqr` strategy, the value `100` is clipped down to `Q3 + 1.5·IQR` where
`Q1`, `Q3` are the 0.25/0.75 quantiles of the full column `[1,2,3,4,100]`
(pandas `Series.quantile` with linear interpolation), giving `7`; the
other values are unchanged and the row count is unchanged.  The `iqr`
path never consults the external library, so the trivial instantiation is
used. -/
theorem c5_outlier_clip_full_column :
    handle_outliers trivialLib "iqr" tOutlier =
      (⟨[⟨"x", Dtype.numeric,
          [Cell.num 1, Cell.num 2, Cell.num 3, Cell.num 4, Cell.num 7]⟩]⟩,
       [⟨Severity.warning, "Found 1 outliers in column x."⟩,
        ⟨Severity.info, "Clipped outliers in column x."⟩]) ∧
    (7 : ℚ) = quantileQ [1, 2, 3, 4, 100] (3/4)
      + (3/2) * (quantileQ [1, 2, 3, 4, 100] (3/4) - quantileQ [1, 2, 3, 4, 100] (1/4)) ∧
    (handle_outliers trivialLib "iqr" tOutlier).1.nRows = tOutlier.nRows := by
  with_unfolding_all decide

/-- C3 counterexample: on a table whose single object column is named
`" A!"` and holds the number `1` (no string), the whitespace-trim step of
`basic_cleaning` raises after the in-place column rename; the stage emits
the error diagnostic but returns the table with the column already renamed
to `"a"` — not the table exactly unchanged, refuting the claim. -/
theorem c3_counterexample :
    basic_cleaning tClean =
      (⟨[⟨"a", Dtype.object, [Cell.num 1]⟩]⟩,
       [⟨Severity.error, "Error in basic_cleaning"⟩]) ∧
    (⟨[⟨"a", Dtype.object, [Cell.num 1]⟩]⟩ : Table) ≠ tClean := by
  with_unfolding_all decide

/-- C3 (amended): when the whitespace-trim step of `basic_cleaning`
raises, the error is caught and an error diagnostic is emitted, but the
returned table keeps the column-name normalization already performed
in place before the failure; cell values, dtypes and the column count are
untouched (no value trim or column drop has happened yet). -/
theorem c3_cleaning_failure_keeps_renames :
    ∀ t : Table,
      ((renameCols t).cols.any
        (fun c => c.dtype == Dtype.object && strAccessorRaises c.cells)) = true →
      basic_cleaning t = (renameCols t, [⟨Severity.error, "Error in basic_cleaning"⟩]) ∧
      (renameCols t).cols.map Col.cells = t.cols.map Col.cells ∧
      (renameCols t).cols.map Col.dtype = t.cols.map Col.dtype ∧
      (renameCols t).cols.length = t.cols.length := by
  intro t h
  refine ⟨?_, ?_, ?_, ?_⟩
  · simp [basic_cleaning, h]
  · simp [renameCols, List.map_map]
  · simp [renameCols, List.map_map]
  · simp [renameCols]

/-- C3 witness: the amended theorem applied to the concrete table
`tClean`. -/
theorem c3_cleaning_failure_keeps_renames_witness :
    ((renameCols tClean).cols.any
      (fun c => c.dtype == Dtype.object && strAccessorRaises c.cells)) = true ∧
    basic_cleaning tClean =
      (renameCols tClean, [⟨Severity.error, "Error in basic_cleaning"⟩]) :=
  ⟨by with_unfolding_all decide,
   (c3_cleaning_failure_keeps_renames tClean (by with_unfolding_all decide)).1⟩

/-- C4 counterexample: with the `mean` strategy on `tMiss`, imputing the
first (text) column raises, the stage-level handler returns the table
unchanged with one error diagnostic — and the second (numeric) column,
although imputable (`mean` would fill its missing value with `1`), is left
unprocessed, refuting the claim that every other column is still
processed. -/
theorem c4_counterexample :
    handle_missing_values "mean" tMiss =
      (tMiss, [⟨Severity.error, "Error in handle_missing_values"⟩]) ∧
    imputeCol "mean" [Cell.num 1, Cell.missing] = some [Cell.num 1, Cell.num 1] ∧
    missingCount ((tMiss.cols.getD 1 ⟨"", Dtype.object, []⟩).cells) = 1 := by
  with_unfolding_all decide

/-- C4 (amended): a failure while imputing one column aborts the whole
Missing-Value Imputer stage (the `try` wraps the entire column loop): the
loop stops at the failing column, the frame as mutated for the columns
already processed is returned with an error diagnostic, and the failing
column and every later column are left as-is. -/
theorem c4_missing_failure_aborts_stage :
    ∀ (method : String) (t : Table) (i : Nat) (rest : List Nat),
      (missingStep method t i).2 = none →
      missingLoop method t (i :: rest) =
        (t, (missingStep method t i).1
          ++ [⟨Severity.error, "Error in handle_missing_values"⟩]) := by
  intro method t i rest h
  rcases hs : missingStep method t i with ⟨ds, o⟩
  rw [hs] at h
  cases o with
  | none => simp [missingLoop, hs]
  | some t2 => simp at h

/-- C4 witness: the amended theorem at the concrete table `tMiss`, method
`mean`, failing column 0, remaining columns `[1]`. -/
theorem c4_missing_failure_aborts_stage_witness :
    (missingStep "mean" tMiss 0).2 = none ∧
    missingLoop "mean" tMiss [0, 1] =
      (tMiss, (missingStep "mean" tMiss 0).1
        ++ [⟨Severity.error, "Error in handle_missing_values"⟩]) :=
  ⟨by with_unfolding_all decide,
   c4_missing_failure_aborts_stage "mean" tMiss 0 [1] (by with_unfolding_all decide)⟩

/-- C2 counterexample: with the invalid duplicate method `"bogus"` the run
is not aborted and no configuration error is surfaced: the pipeline runs
to completion, the mandatory Cleaning stage executes and changes the table
(the column `"A "` is renamed to `"a"`), and the Duplicate Resolver
executes as a no-op logging `"Removed 0 duplicate rows."`. -/
theorem c2_counterexample :
    (prepare_data trivialLib ucBogusDup tConf).1 ≠ tConf ∧
    ⟨Severity.info, "Removed 0 duplicate rows."⟩
      ∈ (prepare_data trivialLib ucBogusDup tConf).2 ∧
    ⟨Severity.info, "Data preparation completed successfully."⟩
      ∈ (prepare_data trivialLib ucBogusDup tConf).2 := by
  with_unfolding_all decide

/-- C2 (amended): invalid strategy names are not validated and never abort
the run; the affected stage leaves the table unchanged at its turn while
every other stage still executes.  A Duplicate Resolver method outside
first/last/all matches no branch and logs `"Removed 0 duplicate rows."`;
a Feature Scaler method outside standard/robust leaves the local `scaler`
unbound, and the resulting `NameError` is caught by the stage handler,
which logs an error diagnostic and passes the table through. -/
theorem c2_invalid_strategy_not_validated :
    (∀ (m : String) (t : Table), m ≠ "first" → m ≠ "last" → m ≠ "all" →
      handle_duplicates m t = (t, [⟨Severity.info, "Removed 0 duplicate rows."⟩])) ∧
    (∀ (lib : PandasLib) (m : String) (t : Table), m ≠ "standard" → m ≠ "robust" →
      scale_features lib m t = (t, [⟨Severity.error, "Error in scale_features"⟩])) := by
  constructor
  · intro m t h1 h2 h3
    simp [handle_duplicates, h1, h2, h3]
  · intro lib m t h1 h2
    simp [scale_features, h1, h2]

/-- C2 witness: the amended theorem at the concrete method `"bogus"`,
table `tConf` and the trivial library. -/
theorem c2_invalid_strategy_not_validated_witness :
    handle_duplicates "bogus" tConf =
      (tConf, [⟨Severity.info, "Removed 0 duplicate rows."⟩]) ∧
    scale_features trivialLib "bogus" tConf =
      (tConf, [⟨Severity.error, "Error in scale_features"⟩]) :=
  ⟨c2_invalid_strategy_not_validated.1 "bogus" tConf
      (by decide) (by decide) (by decide),
   c2_invalid_strategy_not_validated.2 trivialLib "bogus" tConf
      (by decide) (by decide)⟩

/-- C6 (round-trip scenario): for the table
`[{a:1,b:"x"},{a:1,b:"x"},{a:2,b:"y"}]` with the Duplicate Resolver
enabled with strategy `first` and every other optional stage disabled, the
pipeline outputs `[{a:1,b:"x"},{a:2,b:"y"}]`, and among all emitted
diagnostics exactly one has the message `"Removed 1 duplicate rows."` —
an info diagnostic.  (The orchestrator additionally logs its fixed
start/cleaning/completion info lines, which carry different messages.)
The hypotheses pin the documented behavior of the pandas parsers on the
cell value `"x"`: it is neither a date nor a number. -/
theorem c6_roundtrip_duplicates :
    ∀ lib : PandasLib, lib.dateParse "x" = none → lib.numParse "x" = none →
      prepare_data lib ucRound tRound =
        (tRoundOut,
         [⟨Severity.info, "Starting data preparation..."⟩,
          ⟨Severity.info, "Basic cleaning completed."⟩,
          ⟨Severity.info, "Removed 1 duplicate rows."⟩,
          ⟨Severity.info, "Data preparation completed successfully."⟩]) ∧
      (prepare_data lib ucRound tRound).2.filter
          (fun d => d.msg == "Removed 1 duplicate rows.") =
        [⟨Severity.info, "Removed 1 duplicate rows."⟩] := by
  intro lib h1 h2
  have hb : basic_cleaning tRound =
      (tRound, [⟨Severity.info, "Basic cleaning completed."⟩]) := by
    with_unfolding_all decide
  have hd : handle_duplicates "first" tRound =
      (tRoundOut, [⟨Severity.info, "Removed 1 duplicate rows."⟩]) := by
    with_unfolding_all decide
  have hx : parseDateCell lib (Cell.text "x") = none := by
    simp [parseDateCell, h1]
  have hx2 : parseNumCell lib (Cell.text "x") = none := by
    simp [parseNumCell, h2]
  have hc : convert_data_types lib tRoundOut = (tRoundOut, []) := by
    simp [convert_data_types, tRoundOut, convertCol, List.mapM.loop, hx, hx2]
  have heq : prepare_data lib ucRound tRound =
      (tRoundOut,
       [⟨Severity.info, "Starting data preparation..."⟩,
        ⟨Severity.info, "Basic cleaning completed."⟩,
        ⟨Severity.info, "Removed 1 duplicate rows."⟩,
        ⟨Severity.info, "Data preparation completed successfully."⟩]) := by
    simp [prepare_data, ucRound, hb, hd, hc]
  refine ⟨heq, ?_⟩
  rw [heq]
  with_unfolding_all decide

/-- C6 witness: the theorem at the trivial library, whose parsers fail on
every input. -/
theorem c6_roundtrip_duplicates_witness :
    trivialLib.dateParse "x" = none ∧ trivialLib.numParse "x" = none ∧
    prepare_data trivialLib ucRound tRound =
      (tRoundOut,
       [⟨Severity.info, "Starting data preparation..."⟩,
        ⟨Severity.info, "Basic cleaning completed."⟩,
        ⟨Severity.info, "Removed 1 duplicate rows."⟩,
        ⟨Severity.info, "Data preparation completed successfully."⟩]) :=
  ⟨rfl, rfl, (c6_roundtrip_duplicates trivialLib rfl rfl).1⟩

/-- A successful `Option`-valued `mapM` preserves the list length (used
for the whole-column datetime/numeric conversions). -/
theorem mapM_option_length {α β : Type} (f : α → Option β) :
    ∀ (l : List α) (l' : List β), l.mapM f = some l' → l'.length = l.length := by
  intro l
  induction l with
  | nil =>
    intro l' h
    rw [List.mapM_nil] at h
    simp only [pure, Option.some.injEq] at h
    simp [← h]
  | cons a as ih =>
    intro l' h
    rw [List.mapM_cons] at h
    cases hfa : f a with
    | none => rw [hfa] at h; simp at h
    | some b =>
      rw [hfa] at h
      cases hma : as.mapM f with
      | none => rw [hma] at h; simp at h
      | some bs =>
        rw [hma] at h
        simp at h
        rw [← h]
        simp [ih bs hma]

/-- The per-column conversion never renames the column. -/
theorem convertCol_name (lib : PandasLib) (c : Col) :
    ((convertCol lib c).1).name = c.name := by
  unfold convertCol
  split
  · split <;> [rfl; (split <;> rfl)]
  · rfl

/-- The per-column conversion never changes the column length. -/
theorem convertCol_length (lib : PandasLib) (c : Col) :
    ((convertCol lib c).1).cells.length = c.cells.length := by
  unfold convertCol
  split
  · split
    · rename_i cs h
      simpa using mapM_option_length _ _ _ h
    · split
      · rename_i cs h
        simpa using mapM_option_length _ _ _ h
      · rfl
  · rfl

/-- A column whose dtype is not object passes through the conversion
untouched, with no diagnostic. -/
theorem convertCol_nonobject (lib : PandasLib) (c : Col) (h : c.dtype ≠ Dtype.object) :
    convertCol lib c = (c, []) := by
  unfold convertCol
  rw [if_neg]
  simp [h]

/-- C10: the Type Coercer modifies only object (text) columns — every
column whose dtype is already numeric, datetime or boolean is returned
value-for-value unchanged at its position — and the stage never changes
the list of column names or any column length (hence neither the row
count nor the column set). -/
theorem c10_type_coercer_frame :
    ∀ (lib : PandasLib) (t : Table),
      (convert_data_types lib t).1.cols.map Col.name = t.cols.map Col.name ∧
      (convert_data_types lib t).1.cols.map (fun c => c.cells.length)
        = t.cols.map (fun c => c.cells.length) ∧
      ∀ (i : Nat) (c : Col), t.cols.get? i = some c → c.dtype ≠ Dtype.object →
        (convert_data_types lib t).1.cols.get? i = some c := by
  intro lib t
  refine ⟨?_, ?_, ?_⟩
  · simp only [convert_data_types, List.map_map]
    exact List.map_congr_left (fun c _ => convertCol_name lib c)
  · simp only [convert_data_types, List.map_map]
    exact List.map_congr_left (fun c _ => convertCol_length lib c)
  · intro i c hget hdt
    have hcc : (convertCol lib c).1 = c := by rw [convertCol_nonobject lib c hdt]
    simp only [convert_data_types, List.get?_map, hget, Option.map_some']
    rw [hcc]

/-- C10 witness: the theorem at the trivial library and the two-column
table `tTyped`; the numeric column at position 0 is returned unchanged. -/
theorem c10_type_coercer_frame_witness :
    (convert_data_types trivialLib tTyped).1.cols.map Col.name
      = tTyped.cols.map Col.name ∧
    (convert_data_types trivialLib tTyped).1.cols.get? 0
      = some ⟨"n", Dtype.numeric, [Cell.num 1]⟩ :=
  ⟨(c10_type_coercer_frame trivialLib tTyped).1,
   (c10_type_coercer_frame trivialLib tTyped).2.2 0
     ⟨"n", Dtype.numeric, [Cell.num 1]⟩ rfl (by decide)⟩

/-- `prepare_data` is exactly the run of the enabled stages, in the fixed
order, between the start and completion log lines.  Shared helper for the
stage-order and rectangularity theorems. -/
theorem prepare_eq_runStages (lib : PandasLib) (uc : UserChoices) (t : Table) :
    prepare_data lib uc t =
      ((runStages lib uc (enabledStages uc) t).1,
       ⟨Severity.info, "Starting data preparation..."⟩ ::
         ((runStages lib uc (enabledStages uc) t).2
           ++ [⟨Severity.info, "Data preparation completed successfully."⟩])) := by
  rcases uc with ⟨d, dm, mi, mm, o, om, e, em, s, sm, f, fm, r, nc⟩
  cases d <;> cases mi <;> cases o <;> cases e <;> cases s <;> cases f <;> cases r <;>
    simp [prepare_data, runStages, runStage, enabledStages, stageOrder, stageEnabled,
      List.filter, List.append_assoc]

/-- C1: `prepare_data` invokes exactly the stages of the fixed order
Cleaning, Duplicate Resolver, Missing-Value Imputer, Type Coercer,
Outlier Handler, Categorical Encoder, Feature Scaler, Feature Selector,
Dimensionality Reducer that are enabled — it equals the sequential run of
`stageOrder.filter (stageEnabled uc)` — where Cleaning and the Type
Coercer are enabled on every call and each optional stage is enabled
exactly by its configuration flag.  A stage absent from the filtered list
is never invoked: the table passes through it unchanged and it emits no
diagnostic. -/
theorem c1_fixed_stage_order :
    ∀ (lib : PandasLib) (uc : UserChoices) (t : Table),
      prepare_data lib uc t =
        ((runStages lib uc (stageOrder.filter (stageEnabled uc)) t).1,
         ⟨Severity.info, "Starting data preparation..."⟩ ::
           ((runStages lib uc (stageOrder.filter (stageEnabled uc)) t).2
             ++ [⟨Severity.info, "Data preparation completed successfully."⟩])) ∧
      stageEnabled uc StageId.cleaning = true ∧
      stageEnabled uc StageId.typeCoercion = true ∧
      stageEnabled uc StageId.duplicates = uc.handle_duplicates ∧
      stageEnabled uc StageId.missingVals = uc.handle_missing ∧
      stageEnabled uc StageId.outliers = uc.handle_outliers ∧
      stageEnabled uc StageId.encoding = uc.encode_categorical ∧
      stageEnabled uc StageId.scaling = uc.scale_features ∧
      stageEnabled uc StageId.selection = uc.select_features ∧
      stageEnabled uc StageId.reduction = uc.reduce_dimensions := by
  intro lib uc t
  exact ⟨prepare_eq_runStages lib uc t, rfl, rfl, rfl, rfl, rfl, rfl, rfl, rfl, rfl⟩

/-- Under an all-text column, the non-missing cells are exactly the text
values in order. -/
theorem filter_isValue_of_allText :
    ∀ (cs : List Cell), allTextVals cs = true →
      cs.filter Cell.isValue = (texts cs).map Cell.text := by
  intro cs h
  induction cs with
  | nil => rfl
  | cons c cs ih =>
    have h' : allTextVals cs = true := by
      unfold allTextVals at h ⊢
      cases c <;> simp_all [List.filter, Cell.isValue]
    cases c with
    | text s => simp [List.filter, texts, Cell.isValue, ih h']
    | missing => simp [List.filter, texts, Cell.isValue, ih h']
    | num q =>
      exfalso
      unfold allTextVals at h
      simp [List.filter, Cell.isValue, Cell.isText] at h
    | dt v =>
      exfalso
      unfold allTextVals at h
      simp [List.filter, Cell.isValue, Cell.isText] at h
    | bool b =>
      exfalso
      unfold allTextVals at h
      simp [List.filter, Cell.isValue, Cell.isText] at h

/-- For an all-text column, the category list has exactly `nunique`
entries (sorting permutes, dedup counts distinct, and `Cell.text` is
injective). -/
theorem sortedCats_length (cs : List Cell) (h : allTextVals cs = true) :
    (sortedCats cs).length = nunique cs := by
  unfold sortedCats nunique
  rw [filter_isValue_of_allText cs h]
  rw [List.dedup_map_of_injective
    (fun a b => by simp [Cell.text.injEq] : Function.Injective Cell.text)]
  rw [List.length_map]
  exact (List.Perm.dedup (List.perm_insertionSort _ (texts cs))).length_eq

/-- The category list has no repeated value. -/
theorem sortedCats_nodup (cs : List Cell) : (sortedCats cs).Nodup :=
  List.nodup_dedup _

/-- A cell equals at most one member of a duplicate-free category list. -/
theorem countP_text_le_one (x : Cell) :
    ∀ (vs : List String), vs.Nodup →
      vs.countP (fun v => x == Cell.text v) ≤ 1 := by
  intro vs
  induction vs with
  | nil => intro _; simp
  | cons v vs ih =>
    intro h
    rw [List.nodup_cons] at h
    rw [List.countP_cons]
    cases hx : (x == Cell.text v) with
    | false => simpa using ih h.2
    | true =>
      have hxv : x = Cell.text v := by simpa using hx
      have hz : vs.countP (fun v' => x == Cell.text v') = 0 := by
        rw [List.countP_eq_zero]
        intro a ha hpa
        have : x = Cell.text a := by simpa using hpa
        have : a = v := by
          have := hxv ▸ this
          simpa [Cell.text.injEq] using this.symm
        exact h.1 (this ▸ ha)
      simp [hz, hx]

/-- An indicator-column name is strictly longer than the original name. -/
theorem dummy_name_ne (cn v : String) : cn ++ "_" ++ v ≠ cn := by
  intro h
  have hlen := congrArg String.length h
  have h1 : "_".length = 1 := rfl
  simp [String.length_append, h1] at hlen
  omega

/-- Splitting the `get_dummies` output: after the retained columns come
exactly the indicator columns. -/
theorem getDummies_drop :
    ∀ (t : Table) (cn : String) (cs : List Cell),
      (getDummies t cn cs).cols.drop (t.cols.filter (fun d => !(d.name == cn))).length
        = ((sortedCats cs).drop 1).map (fun v =>
            ⟨cn ++ "_" ++ v, Dtype.boolean,
             cs.map (fun x => Cell.bool (x == Cell.text v))⟩) := by
  intro t cn cs
  simp [getDummies, List.drop_left]

/-- C8: one-hot encoding a categorical column with `k` distinct non-missing
values (all text) produces exactly `k − 1` indicator columns appended
after the retained columns, each named `{original}_{value}` (so never the
original name, which is removed), each 0/1-valued (boolean), with at most
one indicator set per row; and under the `auto` strategy the stage uses
one-hot exactly when the column has fewer than 10 distinct values and
label encoding otherwise. -/
theorem c8_onehot_encoding :
    (∀ (t : Table) (cn : String) (cs : List Cell), allTextVals cs = true →
      ((getDummies t cn cs).cols.length
        = (t.cols.filter (fun d => !(d.name == cn))).length + (nunique cs - 1)) ∧
      (((getDummies t cn cs).cols.drop
          (t.cols.filter (fun d => !(d.name == cn))).length).map Col.name
        = ((sortedCats cs).drop 1).map (fun v => cn ++ "_" ++ v)) ∧
      (∀ d ∈ (getDummies t cn cs).cols, d.name ≠ cn) ∧
      (∀ d ∈ (getDummies t cn cs).cols.drop
          (t.cols.filter (fun d => !(d.name == cn))).length,
        d.dtype = Dtype.boolean ∧
        ∀ x ∈ d.cells, x = Cell.bool true ∨ x = Cell.bool false) ∧
      (∀ i : Nat,
        ((getDummies t cn cs).cols.drop
            (t.cols.filter (fun d => !(d.name == cn))).length).countP
          (fun d => d.cells.getD i Cell.missing == Cell.bool true) ≤ 1)) ∧
    (∀ (t : Table) (cn : String) (c : Col),
      t.cols.find? (fun d => d.name == cn) = some c →
      (nunique c.cells < 10 → encodeStep "auto" t cn = encodeStep "onehot" t cn) ∧
      (¬ nunique c.cells < 10 → encodeStep "auto" t cn = encodeStep "label" t cn)) := by
  constructor
  · intro t cn cs h
    refine ⟨?_, ?_, ?_, ?_, ?_⟩
    · simp [getDummies]
      rw [sortedCats_length cs h]
    · rw [getDummies_drop, List.map_map]
      exact List.map_congr_left (fun v _ => rfl)
    · intro d hd
      simp only [getDummies, List.mem_append] at hd
      rcases hd with hd | hd
      · rcases List.mem_filter.mp hd with ⟨-, hne⟩
        simpa using hne
      · rcases List.mem_map.mp hd with ⟨v, -, rfl⟩
        exact dummy_name_ne cn v
    · intro d hd
      rw [getDummies_drop] at hd
      rcases List.mem_map.mp hd with ⟨v, -, rfl⟩
      refine ⟨rfl, ?_⟩
      intro x hx
      rcases List.mem_map.mp hx with ⟨y, -, rfl⟩
      cases (y == Cell.text v) <;> simp
    · intro i
      rw [getDummies_drop, List.countP_map]
      rcases Nat.lt_or_ge i cs.length with hlt | hge
      · have hx : cs[i]? = some cs[i] := List.getElem?_eq_getElem hlt
        have hpred : ∀ v : String,
            (((cs.map (fun x => Cell.bool (x == Cell.text v))).getD i Cell.missing
              == Cell.bool true)) = (cs[i] == Cell.text v) := by
          intro v
          rw [List.getD_eq_getElem?_getD, List.getElem?_map, hx]
          cases hb : (cs[i] == Cell.text v) <;> simp [hb]
        calc ((sortedCats cs).drop 1).countP (fun v =>
                (Function.comp (fun d : Col => d.cells.getD i Cell.missing == Cell.bool true)
                  (fun v => (⟨cn ++ "_" ++ v, Dtype.boolean,
                    cs.map (fun x => Cell.bool (x == Cell.text v))⟩ : Col))) v)
              = ((sortedCats cs).drop 1).countP (fun v => cs[i] == Cell.text v) := by
                apply List.countP_congr
                intro v _
                simpa using hpred v
          _ ≤ 1 := countP_text_le_one cs[i] _
                ((sortedCats_nodup cs).sublist (List.drop_sublist 1 _))
      · have hnone : ∀ v : String,
            ((cs.map (fun x => Cell.bool (x == Cell.text v))).getD i Cell.missing
              == Cell.bool true) = false := by
          intro v
          rw [List.getD_eq_getElem?_getD, List.getElem?_map]
          rw [List.getElem?_eq_none (by simpa using hge)]
          rfl
        have hz : ((sortedCats cs).drop 1).countP
            (Function.comp (fun d : Col => d.cells.getD i Cell.missing == Cell.bool true)
              (fun v => (⟨cn ++ "_" ++ v, Dtype.boolean,
                cs.map (fun x => Cell.bool (x == Cell.text v))⟩ : Col))) = 0 := by
          rw [List.countP_eq_zero]
          intro v hv hpv
          rw [Function.comp] at hpv
          simp only [hnone v] at hpv
          exact Bool.noConfusion hpv
        omega
  · intro t cn c hfind
    constructor
    · intro h10
      simp only [encodeStep, hfind]
      rw [if_pos h10]
      simp
    · intro h10
      simp only [encodeStep, hfind]
      rw [if_neg h10]
      simp

/-- C8 witness: the encoding theorem at the concrete 3-category column
`csEnc` in table `tEnc` (column count after one-hot, and the `auto`
dispatch choosing one-hot below the cardinality threshold). -/
theorem c8_onehot_encoding_witness :
    (getDummies tEnc "c" csEnc).cols.length
      = (tEnc.cols.filter (fun d => !(d.name == "c"))).length + (nunique csEnc - 1) ∧
    encodeStep "auto" tEnc "c" = encodeStep "onehot" tEnc "c" :=
  ⟨(c8_onehot_encoding.1 tEnc "c" csEnc (by with_unfolding_all decide)).1,
   (c8_onehot_encoding.2 tEnc "c" ⟨"c", Dtype.object, csEnc⟩
      (by with_unfolding_all decide)).1 (by with_unfolding_all decide)⟩

/-- Sum after subtracting a constant from every element. -/
theorem sum_map_sub_const (l : List ℝ) (m : ℝ) :
    (l.map (fun x => x - m)).sum = l.sum - l.length * m := by
  induction l with
  | nil => simp
  | cons a as ih =>
    simp [ih]
    ring

/-- Sum after dividing every mapped element by a constant. -/
theorem sum_map_div (l : List ℝ) (f : ℝ → ℝ) (s : ℝ) :
    (l.map (fun x => f x / s)).sum = (l.map f).sum / s := by
  induction l with
  | nil => simp
  | cons a as ih =>
    simp [ih]
    ring

/-- The population variance is nonnegative. -/
theorem varR_nonneg (l : List ℝ) : 0 ≤ varR l := by
  unfold varR
  apply div_nonneg
  · apply List.sum_nonneg
    intro x hx
    rcases List.mem_map.mp hx with ⟨y, -, rfl⟩
    positivity
  · positivity

/-- A nonempty list has nonzero real length. -/
theorem length_cast_ne_zero (l : List ℝ) (hne : l ≠ []) : (l.length : ℝ) ≠ 0 := by
  have : 0 < l.length := List.length_pos.mpr hne
  exact_mod_cast Nat.pos_iff_ne_zero.mp this

/-- Centering a list at its mean makes the sum vanish. -/
theorem sum_sub_mean (l : List ℝ) (hne : l ≠ []) :
    (l.map (fun x => x - meanR l)).sum = 0 := by
  rw [sum_map_sub_const]
  unfold meanR
  rw [mul_div_cancel₀ _ (length_cast_ne_zero l hne)]
  ring

/-- A zero-variance list is constant at its mean. -/
theorem var_zero_imp (l : List ℝ) (hne : l ≠ []) (h : varR l = 0) :
    ∀ x ∈ l, x = meanR l := by
  intro x hx
  unfold varR at h
  rcases div_eq_zero_iff.mp h with hs | hn
  · have hmem : (x - meanR l) ^ 2 ∈ l.map (fun y => (y - meanR l) ^ 2) :=
      List.mem_map_of_mem _ hx
    have hle : (x - meanR l) ^ 2 ≤ (l.map (fun y => (y - meanR l) ^ 2)).sum := by
      apply List.single_le_sum _ _ hmem
      intro y hy
      rcases List.mem_map.mp hy with ⟨z, -, rfl⟩
      positivity
    have h0 : (x - meanR l) ^ 2 = 0 := le_antisymm (hs ▸ hle) (by positivity)
    have := pow_eq_zero_iff (n := 2) (by norm_num) |>.mp h0
    linarith [sub_eq_zero.mp this]
  · exact absurd hn (length_cast_ne_zero l hne)

/-- C9: after standard scaling of a nonempty numeric column, a
zero-variance (constant) column becomes all zeros, every other column has
mean exactly 0 and standard deviation exactly 1 in exact arithmetic
(within floating tolerance in the implementation), and the divisor the
scaler uses is never zero (the zero scale is replaced by 1). -/
theorem c9_standard_scaling :
    ∀ l : List ℝ, l ≠ [] →
      (varR l = 0 → ∀ y ∈ standardScaleR l, y = 0) ∧
      (varR l ≠ 0 → meanR (standardScaleR l) = 0 ∧ stdR (standardScaleR l) = 1) ∧
      (if varR l = 0 then (1 : ℝ) else Real.sqrt (varR l)) ≠ 0 := by
  intro l hne
  have hn := length_cast_ne_zero l hne
  refine ⟨?_, ?_, ?_⟩
  · intro hv y hy
    simp only [standardScaleR, hv, if_pos, div_one] at hy
    rcases List.mem_map.mp hy with ⟨x, hx, rfl⟩
    rw [var_zero_imp l hne hv x hx]
    simp
  · intro hv
    have hs : standardScaleR l
        = l.map (fun x => (x - meanR l) / Real.sqrt (varR l)) := by
      simp [standardScaleR, hv]
    have hsum : (standardScaleR l).sum = 0 := by
      rw [hs, sum_map_div, sum_sub_mean l hne, zero_div]
    have hlen : (standardScaleR l).length = l.length := by
      rw [hs, List.length_map]
    have hmean : meanR (standardScaleR l) = 0 := by
      unfold meanR
      rw [hsum, zero_div]
    refine ⟨hmean, ?_⟩
    have hS : (l.map (fun x => (x - meanR l) ^ 2)).sum = varR l * l.length := by
      unfold varR
      field_simp
    have hsq : Real.sqrt (varR l) ^ 2 = varR l :=
      Real.sq_sqrt (varR_nonneg l)
    have hvar : varR (standardScaleR l) = 1 := by
      have hmean' := hmean
      rw [hs] at hmean'
      unfold varR
      simp only [hs, List.map_map, List.length_map, hmean']
      have hcomp : ((fun y => (y - 0) ^ 2) ∘ fun x => (x - meanR l) / Real.sqrt (varR l))
          = fun x => (x - meanR l) ^ 2 / Real.sqrt (varR l) ^ 2 := by
        funext x
        simp [div_pow]
      rw [hcomp, sum_map_div, hsq, hS]
      rw [mul_comm, mul_div_assoc, div_self hv, mul_one, div_self hn]
    unfold stdR
    rw [hvar, Real.sqrt_one]
  · by_cases hv : varR l = 0
    · simp [hv]
    · rw [if_neg hv]
      exact Real.sqrt_ne_zero'.mpr
        (lt_of_le_of_ne (varR_nonneg l) (Ne.symm hv))

/-- C9 witness: the column `[1, 5]` has variance 4; after scaling its mean
is 0 and its standard deviation is 1. -/
theorem c9_standard_scaling_witness :
    ([(1 : ℝ), 5] ≠ []) ∧ varR [(1 : ℝ), 5] = 4 ∧
    meanR (standardScaleR [(1 : ℝ), 5]) = 0 ∧
    stdR (standardScaleR [(1 : ℝ), 5]) = 1 :=
  have hne : [(1 : ℝ), 5] ≠ [] := by simp
  have hv : varR [(1 : ℝ), 5] = 4 := by norm_num [varR, meanR]
  ⟨hne, hv,
   ((c9_standard_scaling [(1 : ℝ), 5] hne).2.1 (by rw [hv]; norm_num)).1,
   ((c9_standard_scaling [(1 : ℝ), 5] hne).2.1 (by rw [hv]; norm_num)).2⟩

theorem maskFilter_length_congr :
    ∀ (m : List Bool) (l1 l2 : List Cell), l1.length = l2.length →
      (maskFilter m l1).length = (maskFilter m l2).length := by
  intro m
  induction m with
  | nil => intro l1 l2 h; rfl
  | cons b bs ih =>
    intro l1 l2 h
    cases l1 with
    | nil => cases l2 with
      | nil => rfl
      | cons y ys => simp at h
    | cons x xs => cases l2 with
      | nil => simp at h
      | cons y ys =>
        simp only [List.length_cons, Nat.succ.injEq] at h
        cases b <;> simp [maskFilter, List.zip, List.zipWith] at ih ⊢ <;>
          simpa using ih xs ys h

theorem rectN_mem_length {t : Table} {n : Nat} (h : RectN t n) {c : Col}
    (hc : c ∈ t.cols) : c.cells.length = n := h c hc

theorem rect_applyMask (m : List Bool) (t : Table) (h : Rect t) :
    Rect (applyMask m t) := by
  obtain ⟨n, hn⟩ := h
  refine ⟨(maskFilter m (List.replicate n Cell.missing)).length, ?_⟩
  intro c hc
  simp only [applyMask, List.mem_map] at hc
  obtain ⟨c0, hc0, rfl⟩ := hc
  exact maskFilter_length_congr m _ _
    (by rw [hn c0 hc0, List.length_replicate])

theorem rect_basic_cleaning (t : Table) (h : Rect t) : Rect (basic_cleaning t).1 := by
  obtain ⟨n, hn⟩ := h
  by_cases hcond : ((renameCols t).cols.any
      fun c => c.dtype == Dtype.object && strAccessorRaises c.cells) = true
  · refine ⟨n, ?_⟩
    intro c hc
    simp only [basic_cleaning, hcond, if_true] at hc
    simp only [renameCols, List.mem_map] at hc
    obtain ⟨c0, hc0, rfl⟩ := hc
    exact hn c0 hc0
  · refine ⟨n, ?_⟩
    intro c hc
    simp [basic_cleaning, hcond] at hc
    rcases hc with ⟨hc, -⟩
    simp only [List.mem_map, renameCols] at hc
    obtain ⟨c0, hc0, rfl⟩ := hc
    obtain ⟨c1, hc1, rfl⟩ := hc0
    split <;> simp [hn c1 hc1]

theorem rect_handle_duplicates (m : String) (t : Table) (h : Rect t) :
    Rect (handle_duplicates m t).1 := by
  unfold handle_duplicates
  split
  · exact rect_applyMask _ t h
  · exact h

theorem setCol_rectN {t : Table} {n : Nat} (h : RectN t n) (i : Nat)
    {cs : List Cell} (hcs : cs.length = n) : RectN (setCol t i cs) n := by
  intro c hc
  simp only [setCol, List.mem_map] at hc
  obtain ⟨p, hp, rfl⟩ := hc
  have hmem : p.2 ∈ t.cols := (List.of_mem_zip hp).2
  split
  · simpa using hcs
  · exact h p.2 hmem

theorem fillMissing_length (v : Cell) (cs : List Cell) :
    (fillMissing v cs).length = cs.length := by
  simp [fillMissing]

theorem imputeCol_length (m : String) (cs cs' : List Cell)
    (h : imputeCol m cs = some cs') : cs'.length = cs.length := by
  unfold imputeCol at h
  split at h
  · split at h
    · simp only [Option.some.injEq] at h
      rw [← h]
      split <;> exact fillMissing_length _ _
    · exact absurd h (by simp)
  · cases hm : mostFrequent cs with
    | none => rw [hm] at h; simp at h
    | some v =>
      rw [hm] at h
      simp only [Option.map_some', Option.some.injEq] at h
      rw [← h]
      exact fillMissing_length _ _

theorem rect_missingStep (m : String) (t : Table) (i : Nat) (h : Rect t) :
    ∀ t2, (missingStep m t i).2 = some t2 → Rect t2 := by
  intro t2 ht2
  obtain ⟨n, hn⟩ := h
  unfold missingStep at ht2
  split at ht2
  · simp only [Option.some.injEq] at ht2
    subst ht2
    exact ⟨n, hn⟩
  · rename_i c hget
    have hcmem : c ∈ t.cols := List.get?_mem hget
    by_cases hmc : missingCount c.cells = 0
    · rw [if_pos hmc] at ht2
      simp only [Option.some.injEq] at ht2
      subst ht2
      exact ⟨n, hn⟩
    · rw [if_neg hmc] at ht2
      repeat' split at ht2
      all_goals simp only [Option.some.injEq] at ht2
      all_goals first
        | exact absurd ht2 (by simp)
        | (subst ht2
           first
             | exact ⟨n, hn⟩
             | exact rect_applyMask _ t ⟨n, hn⟩
             | (rename_i cs himp
                exact ⟨n, setCol_rectN hn i
                  ((imputeCol_length m c.cells cs himp).trans (hn c hcmem))⟩)
             | exact ⟨n, setCol_rectN hn i
                 ((fillMissing_length _ _).trans (hn c hcmem))⟩)

theorem rect_missingLoop (m : String) :
    ∀ (idxs : List Nat) (t : Table), Rect t → Rect (missingLoop m t idxs).1 := by
  intro idxs
  induction idxs with
  | nil => intro t h; exact h
  | cons i rest ih =>
    intro t h
    unfold missingLoop
    split
    · rename_i ds t2 hstep
      exact ih t2 (rect_missingStep m t i h t2 (by rw [hstep]))
    · exact h

theorem rect_handle_missing (m : String) (t : Table) (h : Rect t) :
    Rect (handle_missing_values m t).1 :=
  rect_missingLoop m _ t h

theorem rect_convert (lib : PandasLib) (t : Table) (h : Rect t) :
    Rect (convert_data_types lib t).1 := by
  obtain ⟨n, hn⟩ := h
  refine ⟨n, ?_⟩
  intro c hc
  simp only [convert_data_types, List.mem_map] at hc
  obtain ⟨c0, hc0, rfl⟩ := hc
  rw [convertCol_length lib c0]
  exact hn c0 hc0

theorem rect_outlierLoop (lib : PandasLib) (m : String) :
    ∀ (idxs : List Nat) (t : Table), Rect t → Rect (outlierLoop lib m t idxs).1 := by
  intro idxs
  induction idxs with
  | nil => intro t h; exact h
  | cons i rest ih =>
    intro t h
    unfold outlierLoop
    split
    · exact ih t h
    · rename_i c hget
      split
      · exact h
      · exact ih t h
      · rename_i lo hi hb
        by_cases hk : outlierCount lo hi c.cells = 0
        · simpa [hk] using ih t h
        · obtain ⟨n, hn⟩ := h
          simpa [hk] using ih (setCol t i (c.cells.map (clipCell lo hi)))
            ⟨n, setCol_rectN hn i
              (by rw [List.length_map]; exact hn c (List.get?_mem hget))⟩

theorem rect_handle_outliers (lib : PandasLib) (m : String) (t : Table) (h : Rect t) :
    Rect (handle_outliers lib m t).1 :=
  rect_outlierLoop lib m _ t h

theorem rect_getDummies {t : Table} {n : Nat} (hn : RectN t n) (cn : String)
    {cs : List Cell} (hcs : cs.length = n) : RectN (getDummies t cn cs) n := by
  intro c hc
  simp only [getDummies, List.mem_append] at hc
  rcases hc with hc | hc
  · exact hn c (List.mem_of_mem_filter hc)
  · rcases List.mem_map.mp hc with ⟨v, -, rfl⟩
    simpa using hcs

theorem rect_labelEncode {t : Table} {n : Nat} (hn : RectN t n) (cn : String)
    {cs : List Cell} (hcs : cs.length = n) : RectN (labelEncode t cn cs) n := by
  intro c hc
  simp only [labelEncode, List.mem_append, List.mem_singleton] at hc
  rcases hc with hc | rfl
  · exact hn c hc
  · simpa using hcs

theorem rect_encodeStep (m : String) (t : Table) (cn : String) (h : Rect t) :
    ∀ t2 ds, encodeStep m t cn = some (t2, ds) → Rect t2 := by
  intro t2 ds ht2
  obtain ⟨n, hn⟩ := h
  unfold encodeStep at ht2
  split at ht2
  · exact Option.noConfusion ht2
  · rename_i c hfind
    have hcmem : c ∈ t.cols := List.mem_of_find?_eq_some hfind
    have hclen : c.cells.length = n := hn c hcmem
    repeat' split at ht2
    all_goals first
      | exact Option.noConfusion ht2
      | (simp only [Option.some.injEq, Prod.mk.injEq] at ht2
         first
           | exact ht2.1 ▸ ⟨n, rect_getDummies hn cn hclen⟩
           | exact ht2.1 ▸ ⟨n, rect_labelEncode hn cn hclen⟩
           | exact ht2.1 ▸ ⟨n, hn⟩)

theorem rect_encodeLoop (m : String) :
    ∀ (cns : List String) (t : Table), Rect t → Rect (encodeLoop m t cns).1 := by
  intro cns
  induction cns with
  | nil => intro t h; exact h
  | cons cn rest ih =>
    intro t h
    unfold encodeLoop
    split
    · rename_i t2 ds hstep
      exact ih t2 (rect_encodeStep m t cn h t2 ds hstep)
    · exact h

theorem rect_encode (m : String) (t : Table) (h : Rect t) :
    Rect (encode_categorical_variables m t).1 :=
  rect_encodeLoop m _ t h

theorem rect_scale (lib : PandasLib) (m : String) (t : Table) (h : Rect t) :
    Rect (scale_features lib m t).1 := by
  obtain ⟨n, hn⟩ := h
  unfold scale_features
  split
  · split
    · exact ⟨n, hn⟩
    · refine ⟨n, ?_⟩
      intro c hc
      simp only [List.mem_map] at hc
      obtain ⟨c0, hc0, rfl⟩ := hc
      split
      · simpa [scaleCellsQ] using hn c0 hc0
      · exact hn c0 hc0
  · exact ⟨n, hn⟩

theorem length_filterMap_of_isSome {α β : Type} (f : α → Option β) :
    ∀ l : List α, (∀ x ∈ l, (f x).isSome = true) →
      (l.filterMap f).length = l.length := by
  intro l
  induction l with
  | nil => intro _; rfl
  | cons a as ih =>
    intro h
    cases hfa : f a with
    | none =>
      have := h a (List.mem_cons_self a as)
      rw [hfa] at this
      simp at this
    | some b =>
      simp only [List.filterMap_cons, hfa, List.length_cons]
      rw [ih (fun x hx => h x (List.mem_cons_of_mem a hx))]

theorem rect_select (lib : PandasLib) (m : String) (t : Table) (h : Rect t) :
    Rect (select_features lib m t).1 := by
  obtain ⟨n, hn⟩ := h
  simp only [select_features]
  split
  · exact ⟨n, hn⟩
  · rename_i t1 ds1 heq
    have ht1 : ∀ c ∈ t1.cols, c ∈ t.cols := by
      split at heq
      · split at heq
        · exact Option.noConfusion heq
        · simp only [Option.some.injEq, Prod.mk.injEq] at heq
          intro c hc
          rw [← heq.1] at hc
          exact (List.mem_filter.mp hc).1
      · simp only [Option.some.injEq, Prod.mk.injEq] at heq
        intro c hc
        rw [← heq.1] at hc
        exact hc
    split
    · exact ⟨n, fun c hc => hn c (ht1 c hc)⟩
    · refine ⟨n, ?_⟩
      intro c hc
      simp only [List.mem_filterMap] at hc
      obtain ⟨p, hp, hsome⟩ := hc
      have hpc : p.2 = c := by
        by_cases hd : p.1 ∈ corrDropIdx lib t1.cols
        · rw [if_pos hd] at hsome
          exact Option.noConfusion hsome
        · rw [if_neg hd] at hsome
          exact Option.some.inj hsome
      have hmem : p.2 ∈ t1.cols := (List.of_mem_zip hp).2
      exact hpc ▸ hn p.2 (ht1 p.2 hmem)

theorem rect_reduce (lib : PandasLib) (ncomp : ℚ) (t : Table)
    (hpca : PcaRect lib) (h : Rect t) : Rect (reduce_dimensions lib ncomp t).1 := by
  obtain ⟨n, hn⟩ := h
  simp only [reduce_dimensions]
  split
  · split
    · exact ⟨n, hn⟩
    · rename_i hlen hguard
      refine ⟨n, ?_⟩
      intro c hc
      simp only [List.mem_append] at hc
      rcases hc with hc | hc
      · exact hn c (List.mem_of_mem_filter hc)
      · simp only [List.mem_map] at hc
        obtain ⟨p, hp, rfl⟩ := hc
        have hp2 : p.2 ∈ lib.pca ncomp
            ((t.cols.filter (fun c => c.dtype == Dtype.numeric)).map
              (fun c => c.cells.filterMap cellF)) := (List.of_mem_zip hp).2
        have hor : ((t.cols.filter (fun c => c.dtype == Dtype.numeric)).any
            (fun c => c.cells.any (fun x => (cellF x).isNone))
            || decide (t.nRows = 0)) = false := by
          simp only [Bool.not_eq_true] at hguard
          exact hguard
        have hany : ((t.cols.filter (fun c => c.dtype == Dtype.numeric)).any
            (fun c => c.cells.any (fun x => (cellF x).isNone))) = false :=
          (Bool.or_eq_false_iff.mp hor).1
        have hcols : ∀ l ∈ (t.cols.filter (fun c => c.dtype == Dtype.numeric)).map
            (fun c => c.cells.filterMap cellF), l.length = n := by
          intro l hl
          simp only [List.mem_map] at hl
          obtain ⟨c0, hc0, rfl⟩ := hl
          have hlenc : c0.cells.length = n := hn c0 (List.mem_of_mem_filter hc0)
          rw [length_filterMap_of_isSome, hlenc]
          intro x hx
          have h1 : (c0.cells.any fun x => (cellF x).isNone) = false :=
            Bool.eq_false_iff.mpr (List.any_eq_false.mp hany c0 hc0)
          have h2 : ¬((cellF x).isNone = true) := List.any_eq_false.mp h1 x hx
          cases hcf : cellF x with
          | none => rw [hcf] at h2; simp at h2
          | some v => rfl
        have hne : (t.cols.filter (fun c => c.dtype == Dtype.numeric)).map
            (fun c => c.cells.filterMap cellF) ≠ [] := by
          intro hemp
          rw [List.map_eq_nil_iff] at hemp
          rw [hemp] at hlen
          simp at hlen
        have := hpca ncomp _ n hne hcols p.2 hp2
        simpa using this
  · exact ⟨n, hn⟩

theorem rect_runStage (lib : PandasLib) (uc : UserChoices) (s : StageId)
    (t : Table) (hpca : PcaRect lib) (h : Rect t) : Rect (runStage lib uc s t).1 := by
  cases s with
  | cleaning => exact rect_basic_cleaning t h
  | duplicates => exact rect_handle_duplicates _ t h
  | missingVals => exact rect_handle_missing _ t h
  | typeCoercion => exact rect_convert lib t h
  | outliers => exact rect_handle_outliers lib _ t h
  | encoding => exact rect_encode _ t h
  | scaling => exact rect_scale lib _ t h
  | selection => exact rect_select lib _ t h
  | reduction => exact rect_reduce lib _ t hpca h

theorem rect_runStages (lib : PandasLib) (uc : UserChoices) (hpca : PcaRect lib) :
    ∀ (l : List StageId) (t : Table), Rect t → Rect (runStages lib uc l t).1 := by
  intro l
  induction l with
  | nil => intro t h; exact h
  | cons s rest ih =>
    intro t h
    exact ih (runStage lib uc s t).1 (rect_runStage lib uc s t hpca h)

theorem rect_runTrace (lib : PandasLib) (uc : UserChoices) (hpca : PcaRect lib) :
    ∀ (l : List StageId) (t : Table), Rect t →
      ∀ u ∈ runTrace lib uc l t, Rect u := by
  intro l
  induction l with
  | nil =>
    intro t h u hu
    simp only [runTrace, List.mem_singleton] at hu
    exact hu ▸ h
  | cons s rest ih =>
    intro t h u hu
    simp only [runTrace, List.mem_cons] at hu
    rcases hu with rfl | hu
    · exact h
    · exact ih (runStage lib uc s t).1 (rect_runStage lib uc s t hpca h) u hu

/-- C7 (rectangularity invariant): for every input table, configuration and
library satisfying the PCA shape contract, every intermediate table of the
pipeline — the input and the table after each individual stage, including
the Dimensionality Reducer, which concatenates the principal-component
columns back onto the non-numeric columns — is rectangular (all columns of
equal length), and so is the final `prepare_data` output. -/
theorem c7_rectangularity :
    ∀ (lib : PandasLib) (uc : UserChoices) (t : Table), PcaRect lib → Rect t →
      (∀ u ∈ runTrace lib uc (enabledStages uc) t, Rect u) ∧
      Rect (prepare_data lib uc t).1 := by
  intro lib uc t hpca h
  constructor
  · exact rect_runTrace lib uc hpca (enabledStages uc) t h
  · rw [prepare_eq_runStages]
    exact rect_runStages lib uc hpca (enabledStages uc) t h

/-- C7 witness: the trivial library satisfies the PCA contract vacuously;
the round-trip table is rectangular with 3 rows, and so is every
intermediate table of the default-configuration run. -/
theorem c7_rectangularity_witness :
    PcaRect trivialLib ∧ Rect tRound ∧
    (∀ u ∈ runTrace trivialLib {} (enabledStages {}) tRound, Rect u) ∧
    Rect (prepare_data trivialLib {} tRound).1 :=
  have hpca : PcaRect trivialLib := by
    intro q cols n hne hlen c' hc'
    simp [trivialLib] at hc'
  have hrect : Rect tRound := ⟨3, by
    intro c hc
    simp only [tRound, List.mem_cons, List.not_mem_nil, or_false] at hc
    rcases hc with rfl | rfl <;> rfl⟩
  ⟨hpca, hrect,
   (c7_rectangularity trivialLib {} tRound hpca hrect).1,
   (c7_rectangularity trivialLib {} tRound hpca hrect).2⟩
